import Mathlib

/-!
# Verification of the DTO generator core (`generate-dto.js`)

Shallow embedding of the core of the DTO generator: the line-oriented
field extractor (`relationField`, `parseProps`) and the DTO field mapper
(the per-property validator selection of the generation loop).  Strings
are modelled as `List Char`; the two regular expressions of the source
are embedded as explicit matching functions with JavaScript
leftmost-first search semantics.
-/

set_option maxRecDepth 4096

/-- ASCII whitespace, matching the JavaScript `\s` class on the ASCII
range (space, tab, line feed, carriage return, vertical tab, form feed). -/
def isSpace (c : Char) : Bool :=
  c = ' ' || c = '\t' || c = '\n' || c = '\r' || c = '\x0b' || c = '\x0c'

/-- The character class `[A-Za-z0-9_]` of both source regexes. -/
def isWordChar (c : Char) : Bool :=
  c.isAlpha || c.isDigit || c = '_'

/-- `String.prototype.trim`: strip whitespace from both ends. -/
def trim (s : List Char) : List Char :=
  ((s.dropWhile isSpace).reverse.dropWhile isSpace).reverse

/-- `content.split('\n')`: split into physical lines; the separator is
dropped, and an empty input yields one empty line. -/
def splitLines : List Char → List (List Char)
  | [] => [[]]
  | c :: cs =>
    if c = '\n' then [] :: splitLines cs
    else
      match splitLines cs with
      | [] => [[c]]
      | l :: ls => (c :: l) :: ls

/-- Match a literal string at the head of the input, returning the rest. -/
def matchLit : List Char → List Char → Option (List Char)
  | [], s => some s
  | _ :: _, [] => none
  | p :: ps, c :: cs => if c = p then matchLit ps cs else none

/-- Greedy `\s*`. -/
def skipWs (s : List Char) : List Char := s.dropWhile isSpace

/-- The four relation kinds of the relation regex alternation. -/
inductive RelKind where
  | manyToOne
  | oneToMany
  | manyToMany
  | oneToOne
deriving DecidableEq, Repr

/-- The canonical type set `{string, number, boolean, Date, array, any}`
that `parseProps` reduces every declared type to. -/
inductive CanonType where
  | string
  | number
  | boolean
  | date
  | array
  | any
deriving DecidableEq, Repr

/-- One extracted field, with exactly the fields of the objects pushed by
`parseProps`: `{ name, type, isOptional, isArray, isRelation }`. -/
structure RawField where
  name : List Char
  type : CanonType
  isOptional : Bool
  isArray : Bool
  isRelation : Bool
deriving DecidableEq, Repr

/-- Tail of the relation regex after the kind:
`\s*\(\s*\(\)\s*=>\s*([A-Za-z0-9_]+)\s*[,)]`.  Every `\s*` and the
greedy `([A-Za-z0-9_]+)` are followed by characters outside their own
class, so maximal munch is exact.  Returns the captured target. -/
def relTail (s : List Char) : Option (List Char) :=
  match skipWs s with
  | '(' :: s1 =>
    match skipWs s1 with
    | '(' :: ')' :: s2 =>
      match skipWs s2 with
      | '=' :: '>' :: s3 =>
        let s4 := skipWs s3
        let tgt := s4.takeWhile isWordChar
        if tgt.isEmpty then none
        else
          match skipWs (s4.dropWhile isWordChar) with
          | ',' :: _ => some tgt
          | ')' :: _ => some tgt
          | _ => none
      | _ => none
    | _ => none
  | _ => none

/-- Attempt the relation regex
`@(ManyToOne|OneToMany|ManyToMany|OneToOne)\s*\(\s*\(\)\s*=>\s*([A-Za-z0-9_]+)\s*[,)]`
anchored at the start of `s`, trying the alternatives in source order. -/
def relMatchAt (s : List Char) : Option (RelKind × List Char) :=
  match s with
  | '@' :: s1 =>
    (((matchLit ("ManyToOne".data) s1).bind relTail).map (fun t => (RelKind.manyToOne, t))).orElse fun _ =>
    (((matchLit ("OneToMany".data) s1).bind relTail).map (fun t => (RelKind.oneToMany, t))).orElse fun _ =>
    (((matchLit ("ManyToMany".data) s1).bind relTail).map (fun t => (RelKind.manyToMany, t))).orElse fun _ =>
    ((matchLit ("OneToOne".data) s1).bind relTail).map (fun t => (RelKind.oneToOne, t))
  | _ => none

/-- Unanchored search (`line.match(...)`): try each start position from
the left, returning the first successful relation match. -/
def relSearch : List Char → Option (RelKind × List Char)
  | [] => none
  | c :: cs => (relMatchAt (c :: cs)).orElse fun _ => relSearch cs

/-- `target.charAt(0).toLowerCase() + target.slice(1)`. -/
def lowerFirst : List Char → List Char
  | [] => []
  | c :: cs => c.toLower :: cs

/-- `relationField(line)`: on a relation match, build the raw field.
`ManyToOne`/`OneToOne` give `<target>Id` (scalar), `OneToMany`/`ManyToMany`
give `<target>Ids` (array); the type is `number`, the field is not
optional, and `isRelation` is set. -/
def relationField (line : List Char) : Option RawField :=
  match relSearch line with
  | none => none
  | some (k, target) =>
    match k with
    | RelKind.manyToOne | RelKind.oneToOne =>
      some ⟨lowerFirst target ++ ("Id".data), CanonType.number, false, false, true⟩
    | RelKind.oneToMany | RelKind.manyToMany =>
      some ⟨lowerFirst target ++ ("Ids".data), CanonType.number, false, true, true⟩

/-- Suffix of the property regex after the colon: `\s*([^;\n]+);`.
Greedy `\s*` first, then the capture runs to the first `;`.  When the
first non-space character is already `;`, the engine backtracks `\s*`
by one character so that the capture is that single whitespace
character — possible only when it is not `\n` (excluded from the
class). Returns the captured group (untrimmed). -/
def typeCapture (s : List Char) : Option (List Char) :=
  let w := s.takeWhile isSpace
  let r := s.dropWhile isSpace
  match r with
  | ';' :: _ =>
    match w.getLast? with
    | some c => if c = '\n' then none else some [c]
    | none => none
  | _ =>
    let t := r.takeWhile (fun c => !(c = ';' || c = '\n'))
    match r.drop t.length with
    | ';' :: _ => some t
    | _ => none

/-- Core of the property regex without the modifier group:
`([a-zA-Z0-9_]+)\??:\s*([^;\n]+);` anchored at the start of `s`.
Returns the captured name and type. -/
def propCore (s : List Char) : Option (List Char × List Char) :=
  let nm := s.takeWhile isWordChar
  if nm.isEmpty then none
  else
    match s.dropWhile isWordChar with
    | '?' :: ':' :: r => (typeCapture r).map (fun t => (nm, t))
    | ':' :: r => (typeCapture r).map (fun t => (nm, t))
    | _ => none

/-- One modifier alternative `<keyword>\s+` followed by the core. -/
def propWithMod (kw : List Char) (s : List Char) : Option (List Char × List Char) :=
  match matchLit kw s with
  | none => none
  | some r => if (r.takeWhile isSpace).isEmpty then none else propCore (skipWs r)

/-- Attempt the property regex
`(?:public\s+|protected\s+|private\s+)?([a-zA-Z0-9_]+)\??:\s*([^;\n]+);`
anchored at the start of `s`: the optional modifier group tries its
alternatives then the empty match. -/
def propMatchAt (s : List Char) : Option (List Char × List Char) :=
  (propWithMod ("public".data) s).orElse fun _ =>
  (propWithMod ("protected".data) s).orElse fun _ =>
  (propWithMod ("private".data) s).orElse fun _ =>
  propCore s

/-- Unanchored search for the property regex: first start position that
matches wins. -/
def propSearch : List Char → Option (List Char × List Char)
  | [] => none
  | c :: cs => (propMatchAt (c :: cs)).orElse fun _ => propSearch cs

/-- Does `pat` occur as a contiguous substring of the second list? -/
def occursIn (pat : List Char) : List Char → Bool
  | [] => pat.isEmpty
  | c :: cs => pat.isPrefixOf (c :: cs) || occursIn pat cs

/-- Case-insensitive: is `pat` (given lowercase) an infix of `s`?  This
is `/pat/i.test(s)` for a literal pattern. -/
def containsCI (s pat : List Char) : Bool :=
  occursIn pat (s.map Char.toLower)

/-- `/a|b|.../i.test(s)` for literal alternatives. -/
def testAnyCI (s : List Char) (pats : List (List Char)) : Bool :=
  pats.any (fun p => containsCI s p)

/-- Case-sensitive suffix test, `/\[\]$/.test(s)`. -/
def endsWithBrackets (s : List Char) : Bool :=
  ("[]".data).isSuffixOf s

/-- Alternatives of `/string|varchar|text/i`. -/
def strPats : List (List Char) := ["string".data, "varchar".data, "text".data]

/-- Alternatives of `/number|int|decimal|float|double|numeric|smallint|bigint/i`. -/
def numPats : List (List Char) :=
  ["number".data, "int".data, "decimal".data, "float".data,
   "double".data, "numeric".data, "smallint".data, "bigint".data]

/-- Alternatives of `/boolean|true|false/i`. -/
def boolPats : List (List Char) := ["boolean".data, "true".data, "false".data]

/-- Alternatives of `/Date|datetime|timestamp/i` (lowercased). -/
def datePats : List (List Char) := ["date".data, "datetime".data, "timestamp".data]

/-- The ordered canonicalization chain of `parseProps` (first match
wins): string-like, number-like, boolean-like, date-like, array
(`[]` suffix or case-sensitive `Array<` infix), else `any`. -/
def canonType (t : List Char) : CanonType :=
  if testAnyCI t strPats then CanonType.string
  else if testAnyCI t numPats then CanonType.number
  else if testAnyCI t boolPats then CanonType.boolean
  else if testAnyCI t datePats then CanonType.date
  else if endsWithBrackets t || occursIn ("Array<".data) t then CanonType.array
  else CanonType.any

/-- Process one physical line of `parseProps`: trim, try the relation
regex first, otherwise try the property regex; on a property match the
declared type is trimmed and canonicalized, and the field is optional
exactly when the trimmed line contains a `?` anywhere
(`line.includes('?')`). -/
def parseLine (rawLine : List Char) : Option RawField :=
  match relationField (trim rawLine) with
  | some rel => some rel
  | none =>
    match propSearch (trim rawLine) with
    | some (nm, rawType) =>
      some ⟨nm, canonType (trim rawType), (trim rawLine).contains '?',
        canonType (trim rawType) = CanonType.array, false⟩
    | none => none

/-- `parseProps(entityContent)`: split into lines and collect the field
of every matching line, in line order; non-matching lines contribute
nothing. -/
def parseProps (content : List Char) : List RawField :=
  (splitLines content).filterMap parseLine

/-- Validation-rule identifiers: the class-validator decorators emitted
by the generation loop, with `NumericRelationCoercion` standing for the
`@Type(() => Number)` coercion appended to relation fields. -/
inductive Rule where
  | IsOptional
  | IsNotEmpty
  | IsString
  | IsNumber
  | IsPositive
  | IsBoolean
  | IsDate
  | IsArray
  | NumericRelationCoercion
deriving DecidableEq, Repr

/-- The mapped, renderer-ready form of one field.  `validators` is the
ordered list of rules exactly as pushed by the generation loop: the
presence rule first, then the type rules, then the relation coercion. -/
structure DtoFieldSpec where
  name : List Char
  canonicalType : CanonType
  isArray : Bool
  required : Bool
  validators : List Rule
deriving DecidableEq, Repr

/-- The per-property body of the generation loop (`props.forEach`):
presence rule (`IsOptional` when optional, else `IsNotEmpty`), then the
type-directed switch (`IsPositive` added for a number only when the
field is neither optional nor an array), then `@Type(() => Number)` for
relation fields. -/
def mapField (p : RawField) : DtoFieldSpec :=
  let presence := if p.isOptional then Rule.IsOptional else Rule.IsNotEmpty
  let typeRules : List Rule :=
    match p.type with
    | CanonType.string => [Rule.IsString]
    | CanonType.number =>
      Rule.IsNumber :: (if !p.isOptional && !p.isArray then [Rule.IsPositive] else [])
    | CanonType.boolean => [Rule.IsBoolean]
    | CanonType.date => [Rule.IsDate]
    | CanonType.array => [Rule.IsArray]
    | CanonType.any => []
  let coercion : List Rule := if p.isRelation then [Rule.NumericRelationCoercion] else []
  ⟨p.name, p.type, p.isArray, !p.isOptional, presence :: (typeRules ++ coercion)⟩

/-- The extractor-plus-mapper pipeline on one entity text. -/
def generateFields (content : List Char) : List DtoFieldSpec :=
  (parseProps content).map mapField

/-- Is a rule one of the two presence rules? -/
def isPresenceRule (r : Rule) : Bool :=
  r = Rule.IsOptional || r = Rule.IsNotEmpty

/-- The presence rules of a mapped field, in order. -/
def presenceRules (d : DtoFieldSpec) : List Rule :=
  d.validators.filter isPresenceRule

/-- The non-presence validation rules of a mapped field, in order (type
rules and the relation coercion). -/
def typeRulesOf (d : DtoFieldSpec) : List Rule :=
  d.validators.filter (fun r => !isPresenceRule r)

/-! ## Helper lemmas -/

/-- Every field built by `relationField` has `isRelation = true`. -/
theorem relationField_isRelation (s : List Char) (f : RawField)
    (h : relationField s = some f) : f.isRelation = true := by
  unfold relationField at h
  cases hrs : relSearch s with
  | none => rw [hrs] at h; cases h
  | some kt =>
    obtain ⟨k, X⟩ := kt
    rw [hrs] at h
    cases k <;> (injection h with h'; subst h'; rfl)

/-- `splitLines` always returns at least one line. -/
theorem splitLines_ne_nil (s : List Char) : splitLines s ≠ [] := by
  cases s with
  | nil => simp [splitLines]
  | cons c cs =>
    unfold splitLines
    split
    · simp
    · split <;> simp

/-- Splitting at an explicit separator decomposes the line list. -/
theorem splitLines_append (a b : List Char) :
    splitLines (a ++ '\n' :: b) = splitLines a ++ splitLines b := by
  induction a with
  | nil => simp [splitLines]
  | cons c cs ih =>
    by_cases hc : c = '\n'
    · subst hc
      simp [splitLines, ih]
    · obtain ⟨l, ls, hcs⟩ : ∃ l ls, splitLines cs = l :: ls := by
        cases h : splitLines cs with
        | nil => exact absurd h (splitLines_ne_nil cs)
        | cons l ls => exact ⟨l, ls, rfl⟩
      simp [splitLines, hc, ih, hcs]

/-- `filterMap` produces exactly one output element per input on which
the function succeeds. -/
theorem length_filterMap_eq_countP {α β : Type} (f : α → Option β) (l : List α) :
    (l.filterMap f).length = l.countP (fun a => (f a).isSome) := by
  induction l with
  | nil => rfl
  | cons x xs ih =>
    rw [List.filterMap_cons, List.countP_cons]
    cases hfx : f x with
    | none => simp [hfx, ih]
    | some y => simp [hfx, ih]

/-! ## Claims -/

/-- C1 (counterexample): on the single line `tags?: string[];` the
pipeline does not canonicalize the field to `array`: the `string`
substring test of rule 2 already matches the token `string[]`, so
rule 6 (`[]` suffix) is never reached. -/
theorem c1_counterexample :
    ¬ ((generateFields ("tags?: string[];".data)).map DtoFieldSpec.canonicalType
        = [CanonType.array]) := by decide

/-- C1 (amended): on the single line `tags?: string[];` the pipeline
produces exactly one DtoFieldSpec, named `tags`, with canonical type
`string`, `isArray = false`, `required = false`, presence rule
`IsOptional` and type rule `IsString`. -/
theorem c1_amended :
    generateFields ("tags?: string[];".data)
      = [⟨"tags".data, CanonType.string, false, false,
          [Rule.IsOptional, Rule.IsString]⟩] := by decide

/-- C2 (counterexample): on the two lines
`@ManyToOne(() => Client, ...)` and ` cliente: Client;` the pipeline
does not produce exactly one field named `clienteId`: the relation
target `Client` lower-cases to `clientId`, and the second line also
matches the plain-property pattern. -/
theorem c2_counterexample :
    ¬ ((generateFields ("@ManyToOne(() => Client, ...)\n cliente: Client;".data)).map
        DtoFieldSpec.name = ["clienteId".data]) := by decide

/-- C2 (amended): on those two lines the pipeline produces exactly two
DtoFieldSpecs: the relation line yields `clientId` (number, scalar,
required) with validators `[IsNotEmpty, IsNumber, IsPositive,
NumericRelationCoercion]` — the coercion appended after the numeric
rules — and the property line yields `cliente` of canonical type `any`
(required, no type rule). -/
theorem c2_amended :
    generateFields ("@ManyToOne(() => Client, ...)\n cliente: Client;".data)
      = [⟨"clientId".data, CanonType.number, false, true,
          [Rule.IsNotEmpty, Rule.IsNumber, Rule.IsPositive, Rule.NumericRelationCoercion]⟩,
         ⟨"cliente".data, CanonType.any, false, true, [Rule.IsNotEmpty]⟩] := by decide

/-- C3 (counterexample): the declaration `flag: boolean; // set?`
carries no `?` on the property name, yet the pipeline does not mark it
required: `isOptional` is computed with `line.includes('?')`, and the
comment's `?` makes the field optional. -/
theorem c3_counterexample :
    ¬ ((generateFields ("flag: boolean; // set?".data)).map
        (fun d => (d.name, d.required)) = [("flag".data, true)]) := by decide

/-- C3 (amended): for every line matched as a plain property (not a
relation), the mapped field is required exactly when the trimmed line
contains no `?` character anywhere — optionality is
`line.includes('?')`, not a `?` marker on the property name. -/
theorem c3_amended (l : List Char) (f : RawField)
    (h : parseLine l = some f) (hrel : f.isRelation = false) :
    (mapField f).required = !((trim l).contains '?') := by
  unfold parseLine at h
  cases hrf : relationField (trim l) with
  | some rel =>
    rw [hrf] at h
    injection h with h'
    subst h'
    have hr := relationField_isRelation _ _ hrf
    rw [hrel] at hr
    cases hr
  | none =>
    rw [hrf] at h
    cases hps : propSearch (trim l) with
    | none => rw [hps] at h; cases h
    | some p =>
      obtain ⟨nm, t⟩ := p
      rw [hps] at h
      injection h with h'
      subst h'
      rfl

/-- Witness for C3 (amended) at the line `name?: string;`. -/
theorem c3_amended_witness :
    (mapField ⟨"name".data, CanonType.string, true, false, false⟩).required
      = !((trim ("name?: string;".data)).contains '?') :=
  c3_amended ("name?: string;".data)
    ⟨"name".data, CanonType.string, true, false, false⟩ (by decide) (by decide)

/-- C6: every field the mapper produces carries exactly one presence
rule — `IsNotEmpty` when it is required, `IsOptional` otherwise — so
the two presence rules never occur together and one is always there. -/
theorem c6_presence_rule (p : RawField) :
    presenceRules (mapField p)
      = [if (mapField p).required then Rule.IsNotEmpty else Rule.IsOptional] := by
  obtain ⟨nm, t, o, a, r⟩ := p
  cases o <;> cases t <;> cases a <;> cases r <;> rfl

/-- C7: a line on which the relation regex succeeds contributes exactly
its relation field — the plain-property pattern is never consulted for
that line. -/
theorem c7_relation_precedence (l : List Char) (rf : RawField)
    (h : relationField (trim l) = some rf) :
    parseLine l = some rf ∧ rf.isRelation = true := by
  refine ⟨?_, relationField_isRelation _ _ h⟩
  unfold parseLine
  rw [h]

/-- Witness for C7 at a line that matches both shapes:
`@ManyToOne(() => Client) client: Client;` yields only the relation
field `clientId`, though `client: Client;` would also match the
property pattern. -/
theorem c7_witness :
    parseLine ("@ManyToOne(() => Client) client: Client;".data)
        = some ⟨"clientId".data, CanonType.number, false, false, true⟩
      ∧ RawField.isRelation
          ⟨"clientId".data, CanonType.number, false, false, true⟩ = true :=
  c7_relation_precedence ("@ManyToOne(() => Client) client: Client;".data)
    ⟨"clientId".data, CanonType.number, false, false, true⟩ (by decide)

/-- C10: the plain-property pattern is unanchored, so a comment line
containing an embedded `identifier: something;` fragment still yields a
field: `// legacy: id: number;` is captured with name `legacy` and
declared type `id: number`, which canonicalizes to `number`. -/
theorem c10_comment_line_matches :
    propSearch (trim ("// legacy: id: number;".data))
        = some ("legacy".data, "id: number".data)
      ∧ parseLine ("// legacy: id: number;".data)
        = some ⟨"legacy".data, CanonType.number, false, false, false⟩ := by decide

/-- C4: a plain declaration whose trimmed declared type fails the
string, number and boolean substring tests but matches the
date pattern canonicalizes to `date`, and the mapper attaches `IsDate`
as its only non-presence rule. -/
theorem c4_date_canonicalization (l nm t : List Char)
    (hrel : relationField (trim l) = none)
    (hprop : propSearch (trim l) = some (nm, t))
    (h2 : testAnyCI (trim t) strPats = false)
    (h3 : testAnyCI (trim t) numPats = false)
    (h4 : testAnyCI (trim t) boolPats = false)
    (h5 : testAnyCI (trim t) datePats = true) :
    ∃ f, parseLine l = some f ∧ f.isRelation = false
      ∧ (mapField f).canonicalType = CanonType.date
      ∧ typeRulesOf (mapField f) = [Rule.IsDate] := by
  have hct : canonType (trim t) = CanonType.date := by
    unfold canonType
    rw [h2, h3, h4, h5]
    rfl
  refine ⟨⟨nm, CanonType.date, (trim l).contains '?', false, false⟩, ?_, rfl, rfl, ?_⟩
  · unfold parseLine
    rw [hrel, hprop]
    show some (⟨nm, canonType (trim t), (trim l).contains '?',
        decide (canonType (trim t) = CanonType.array), false⟩ : RawField)
      = some ⟨nm, CanonType.date, (trim l).contains '?', false, false⟩
    rw [hct]
    rfl
  · cases hq : (trim l).contains '?' <;> rfl

/-- Witness for C4 at the line `created_at: Date;`. -/
theorem c4_witness :
    ∃ f, parseLine ("created_at: Date;".data) = some f ∧ f.isRelation = false
      ∧ (mapField f).canonicalType = CanonType.date
      ∧ typeRulesOf (mapField f) = [Rule.IsDate] :=
  c4_date_canonicalization ("created_at: Date;".data) ("created_at".data) ("Date".data)
    (by decide) (by decide) (by decide) (by decide) (by decide) (by decide)

/-- C5: a line on which the relation regex succeeds with kind `k` and
target `X` yields exactly one raw field: for `ManyToOne`/`OneToOne` it
is named `lowerFirst X ++ "Id"` with `isArray = false`, for
`OneToMany`/`ManyToMany` it is named `lowerFirst X ++ "Ids"` with
`isArray = true`; in both cases `isRelation = true` and the mapped
field defaults to required. -/
theorem c5_relation_fields (l : List Char) (k : RelKind) (X : List Char)
    (h : relSearch (trim l) = some (k, X)) :
    ∃ f, parseLine l = some f ∧ f.isRelation = true ∧ f.isOptional = false
      ∧ (mapField f).required = true
      ∧ ((k = RelKind.manyToOne ∨ k = RelKind.oneToOne) →
          f.name = lowerFirst X ++ ("Id".data) ∧ f.isArray = false)
      ∧ ((k = RelKind.oneToMany ∨ k = RelKind.manyToMany) →
          f.name = lowerFirst X ++ ("Ids".data) ∧ f.isArray = true) := by
  have hpl : ∀ g : RawField, relationField (trim l) = some g → parseLine l = some g := by
    intro g hg
    unfold parseLine
    rw [hg]
  cases k
  case manyToOne =>
    refine ⟨⟨lowerFirst X ++ ("Id".data), CanonType.number, false, false, true⟩,
      hpl _ ?_, rfl, rfl, rfl, fun _ => ⟨rfl, rfl⟩, fun hk => absurd hk (by decide)⟩
    unfold relationField
    rw [h]
  case oneToOne =>
    refine ⟨⟨lowerFirst X ++ ("Id".data), CanonType.number, false, false, true⟩,
      hpl _ ?_, rfl, rfl, rfl, fun _ => ⟨rfl, rfl⟩, fun hk => absurd hk (by decide)⟩
    unfold relationField
    rw [h]
  case oneToMany =>
    refine ⟨⟨lowerFirst X ++ ("Ids".data), CanonType.number, false, true, true⟩,
      hpl _ ?_, rfl, rfl, rfl, fun hk => absurd hk (by decide), fun _ => ⟨rfl, rfl⟩⟩
    unfold relationField
    rw [h]
  case manyToMany =>
    refine ⟨⟨lowerFirst X ++ ("Ids".data), CanonType.number, false, true, true⟩,
      hpl _ ?_, rfl, rfl, rfl, fun hk => absurd hk (by decide), fun _ => ⟨rfl, rfl⟩⟩
    unfold relationField
    rw [h]

/-- Witness for C5 at the line `@ManyToMany(() => Tag, (t) => t.x)`. -/
theorem c5_witness :
    ∃ f, parseLine ("@ManyToMany(() => Tag, (t) => t.x)".data) = some f
      ∧ f.isRelation = true ∧ f.isOptional = false
      ∧ (mapField f).required = true
      ∧ ((RelKind.manyToMany = RelKind.manyToOne ∨ RelKind.manyToMany = RelKind.oneToOne) →
          f.name = lowerFirst ("Tag".data) ++ ("Id".data) ∧ f.isArray = false)
      ∧ ((RelKind.manyToMany = RelKind.oneToMany ∨ RelKind.manyToMany = RelKind.manyToMany) →
          f.name = lowerFirst ("Tag".data) ++ ("Ids".data) ∧ f.isArray = true) :=
  c5_relation_fields ("@ManyToMany(() => Tag, (t) => t.x)".data)
    RelKind.manyToMany ("Tag".data) (by decide)

/-- C8: the extractor is a total function on arbitrary text — it is the
per-line `filterMap` of `parseLine` over the split lines, so
non-matching lines contribute nothing (partial extraction), and its
result is empty exactly when no line matches either shape (the
recoverable no-fields condition). -/
theorem c8_total_and_empty_iff (content : List Char) :
    parseProps content = (splitLines content).filterMap parseLine
      ∧ (parseProps content = [] ↔ ∀ l ∈ splitLines content, parseLine l = none) := by
  refine ⟨rfl, ?_⟩
  unfold parseProps
  exact List.filterMap_eq_nil_iff

/-- C9: the pipeline emits exactly one DtoFieldSpec per matched line,
in line order: splitting at a line boundary splits the output
(insertion order, no deduplication), the mapper is the 1:1
order-preserving `map` of `mapField`, and the output length equals the
number of matched lines. -/
theorem c9_one_per_line_in_order (a b content : List Char) :
    generateFields (a ++ '\n' :: b) = generateFields a ++ generateFields b
      ∧ generateFields content = (parseProps content).map mapField
      ∧ (generateFields content).length
          = (splitLines content).countP (fun l => (parseLine l).isSome) := by
  refine ⟨?_, rfl, ?_⟩
  · unfold generateFields parseProps
    rw [splitLines_append, List.filterMap_append, List.map_append]
  · unfold generateFields parseProps
    rw [List.length_map]
    exact length_filterMap_eq_countP parseLine (splitLines content)
